import Mathlib

/-!
Verification development for the stock-screener application (`src/app.py`).

The Python source is shallowly embedded below:

* Python strings are modelled as lists of characters (`PyStr`); `str.split(",")`,
  `str.strip()` and `str.upper()` become `psplit`, `pstrip`, `pupper`.
* Prices are modelled as exact rationals; the float arithmetic of the source is
  idealised to exact arithmetic, keeping the IEEE special values that the source
  can actually produce: `PF α` adds NaN and the two infinities to a finite value.
  numpy/pandas float operations never raise: division by zero yields ±infinity
  (or NaN for 0/0) with only a warning, and `Series.rolling(window=20)` over a
  series shorter than 20 yields NaN at every index.  These semantics are encoded
  in `pctDevQ`, `pctDevR`, `rollingMeanLast` and `rollingVarLast`.
* `yfinance` calls are an external collaborator; they are modelled by an oracle
  `PyStr → FetchResult` where `FetchResult.ok hist mc` is a successful download
  of a bar history and an optional market capitalisation (`info.get('marketCap')`
  missing ↦ `none`), and `FetchResult.exn` is any exception raised by the
  provider calls (caught by the `except` clause of `fetch_stock_data`).
* `st.error` side effects are recorded as `ErrEvent` values so that the batch
  behaviour ("record the failure and continue") is observable.
* The Streamlit session state (`st.session_state.df`, `st.session_state.last_updated`)
  is `AppState`, and `update_data` is the source's wrapper of the same name.
-/

namespace StockScreen

/-- Python strings, modelled as lists of characters. -/
abbrev PyStr := List Char

/-- Python `str.strip()`: drop leading and trailing whitespace. -/
def pstrip (s : PyStr) : PyStr :=
  ((s.dropWhile Char.isWhitespace).reverse.dropWhile Char.isWhitespace).reverse

/-- Python `str.upper()` (ASCII case mapping suffices for ticker symbols). -/
def pupper (s : PyStr) : PyStr := s.map Char.toUpper

/-- `symbol.strip().upper()` from line 14 of `src/app.py`. -/
def pnorm (s : PyStr) : PyStr := pupper (pstrip s)

/-- Python `str.split(",")`: split at every comma, keeping empty pieces
(`"".split(",") == [""]`, `"a,,b".split(",") == ["a","","b"]`). -/
def psplit : PyStr → List PyStr
  | [] => [[]]
  | c :: cs =>
    if c = ',' then [] :: psplit cs
    else
      match psplit cs with
      | [] => [[c]]
      | t :: ts => (c :: t) :: ts

/-- One row of the yfinance history frame: a daily OHLC price bar. -/
structure Bar where
  opn : ℚ
  high : ℚ
  low : ℚ
  close : ℚ
deriving DecidableEq

/-- A float-valued quantity as the source's numpy arithmetic can produce it:
a finite value, NaN, or one of the infinities. -/
inductive PF (α : Type) where
  | fin (x : α) : PF α
  | nan : PF α
  | pinf : PF α
  | ninf : PF α
deriving DecidableEq

/-- `((x - ref) / ref) * 100` under numpy float semantics, for finite rational
inputs: a zero denominator gives ±infinity (or NaN when the numerator is also
zero) with only a runtime warning — no exception is raised. -/
def pctDevQ (x ref : ℚ) : PF ℚ :=
  if ref = 0 then
    (if 0 < x then PF.pinf else if x < 0 then PF.ninf else PF.nan)
  else PF.fin ((x - ref) / ref * 100)

/-- The same percentage-deviation computation when the reference value may
itself already be NaN (modelled by `none`), as happens for the Bollinger
bounds on a short series: NaN propagates. -/
noncomputable def pctDevR (x : ℝ) (ref : Option ℝ) : PF ℝ :=
  match ref with
  | none => PF.nan
  | some r =>
    if r = 0 then
      (if 0 < x then PF.pinf else if x < 0 then PF.ninf else PF.nan)
    else PF.fin ((x - r) / r * 100)

/-- `Series.min()` of a non-empty pandas series (the `[]` case is unreachable
in the source: it is guarded by `hist.empty`). -/
def listMin : List ℚ → ℚ
  | [] => 0
  | x :: xs => xs.foldl min x

/-- `Series.max()` of a non-empty pandas series. -/
def listMax : List ℚ → ℚ
  | [] => 0
  | x :: xs => xs.foldl max x

/-- Arithmetic mean of a list of rationals. -/
def listMean (l : List ℚ) : ℚ := l.sum / (l.length : ℚ)

/-- Sample variance with `N - 1` denominator (pandas' default `ddof=1`),
applied in the source only to windows of exactly 20 closes. -/
def sampleVar (l : List ℚ) : ℚ :=
  (l.map (fun x => (x - listMean l) ^ 2)).sum / ((l.length : ℚ) - 1)

/-- The final 20-element window of a close series. -/
def window20 (xs : List ℚ) : List ℚ := xs.drop (xs.length - 20)

/-- Mean of the final 20-element window. -/
def mean20 (xs : List ℚ) : ℚ := listMean (window20 xs)

/-- Sample variance of the final 20-element window. -/
def var20 (xs : List ℚ) : ℚ := sampleVar (window20 xs)

/-- `hist['Close'].rolling(window=20).mean().iloc[-1]`: the rolling statistic at
the last index is the mean of the final 20 closes when at least 20 are present,
and NaN (`none`) otherwise (`min_periods` defaults to the window size). -/
def rollingMeanLast (xs : List ℚ) : Option ℚ :=
  if xs.length < 20 then none else some (mean20 xs)

/-- Variance counterpart of `rollingMeanLast`; pandas computes
`rolling(20).std()` as the square root of the `ddof=1` sample variance. -/
def rollingVarLast (xs : List ℚ) : Option ℚ :=
  if xs.length < 20 then none else some (var20 xs)

/-- `hist['Close'].rolling(window=20).std().iloc[-1]`. -/
noncomputable def std20R (xs : List ℚ) : Option ℝ :=
  (rollingVarLast xs).map (fun v => Real.sqrt (v : ℝ))

/-- `bb_low = sma_20 - (2 * std_20)`; NaN when the window is incomplete. -/
noncomputable def bbLowR (xs : List ℚ) : Option ℝ :=
  match rollingMeanLast xs, std20R xs with
  | some m, some s => some ((m : ℝ) - 2 * s)
  | _, _ => none

/-- `bb_high = sma_20 + (2 * std_20)`; NaN when the window is incomplete. -/
noncomputable def bbHighR (xs : List ℚ) : Option ℝ :=
  match rollingMeanLast xs, std20R xs with
  | some m, some s => some ((m : ℝ) + 2 * s)
  | _, _ => none

/-- The close column `hist['Close']` of a bar history. -/
def closes (hist : List Bar) : List ℚ := hist.map Bar.close

/-- `current_price = hist['Close'].iloc[-1]`: the close of the last bar (the
source only evaluates this on a non-empty history). -/
def currentPrice (hist : List Bar) : ℚ := (hist.getLastD ⟨0, 0, 0, 0⟩).close

/-- `low_52w = hist['Low'].min()`. -/
def low52 (hist : List Bar) : ℚ := listMin (hist.map Bar.low)

/-- `high_52w = hist['High'].max()`. -/
def high52 (hist : List Bar) : ℚ := listMax (hist.map Bar.high)

/-- The dictionary appended to `data` for one successfully fetched symbol
(lines 53–63 of `src/app.py`). -/
structure Row where
  symbol : PyStr
  currentPrice : ℚ
  marketCap : Option ℚ
  low52 : ℚ
  high52 : ℚ
  pctFrom52Low : PF ℚ
  pctFrom52High : PF ℚ
  pctFromBBLow : PF ℝ
  pctFromBBHigh : PF ℝ

/-- The per-symbol indicator computation of `fetch_stock_data` (lines 30–63),
run on a non-empty fetched history. -/
noncomputable def computeRow (symbol : PyStr) (hist : List Bar) (mc : Option ℚ) : Row :=
  { symbol := symbol
    currentPrice := currentPrice hist
    marketCap := mc
    low52 := low52 hist
    high52 := high52 hist
    pctFrom52Low := pctDevQ (currentPrice hist) (low52 hist)
    pctFrom52High := pctDevQ (currentPrice hist) (high52 hist)
    pctFromBBLow := pctDevR ((currentPrice hist : ℝ)) (bbLowR (closes hist))
    pctFromBBHigh := pctDevR ((currentPrice hist : ℝ)) (bbHighR (closes hist)) }

/-- Outcome of the provider calls (`yf.Ticker`, `.history`, `.info`) for one
symbol: either a bar history plus optional market cap, or an exception. -/
inductive FetchResult where
  | ok (hist : List Bar) (mc : Option ℚ) : FetchResult
  | exn : FetchResult
deriving DecidableEq

/-- An `st.error` emitted inside the loop of `fetch_stock_data`: either the
"No data found for symbol" message (line 26) or the "Error fetching" message
of the `except` clause (line 67), each carrying the normalised symbol. -/
inductive ErrEvent where
  | noData (symbol : PyStr) : ErrEvent
  | fetchErr (symbol : PyStr) : ErrEvent
deriving DecidableEq

/-- Whether a fetch outcome lets the loop body reach the row computation:
a non-empty history and no exception. -/
def succeeds (f : PyStr → FetchResult) (s : PyStr) : Bool :=
  match f s with
  | FetchResult.ok hist _ => !hist.isEmpty
  | FetchResult.exn => false

/-- Whether a fetch outcome makes the loop body record a failure and skip the
symbol: an empty history or an exception. -/
def isFailure : FetchResult → Bool
  | FetchResult.ok hist _ => hist.isEmpty
  | FetchResult.exn => true

/-- The `st.error` a failing fetch outcome produces for a symbol. -/
def failEvent (r : FetchResult) (s : PyStr) : ErrEvent :=
  match r with
  | FetchResult.ok _ _ => ErrEvent.noData s
  | FetchResult.exn => ErrEvent.fetchErr s

/-- `fetch_stock_data` (lines 10–69): normalise each ticker, skip blanks,
record a failure and continue on an empty history or an exception, and
otherwise append the computed row.  Returns the row list (the returned
`DataFrame`) together with the recorded `st.error` events. -/
noncomputable def fetch_stock_data (f : PyStr → FetchResult) :
    List PyStr → List Row × List ErrEvent
  | [] => ([], [])
  | t :: ts =>
    let symbol := pnorm t
    let rest := fetch_stock_data f ts
    if symbol.isEmpty then rest
    else
      match f symbol with
      | FetchResult.ok hist mc =>
        if hist.isEmpty then (rest.1, ErrEvent.noData symbol :: rest.2)
        else (computeRow symbol hist mc :: rest.1, rest.2)
      | FetchResult.exn => (rest.1, ErrEvent.fetchErr symbol :: rest.2)

/-- The composite symbol normalisation the source performs: the split at line
87 followed by the per-iteration strip/upper/skip-blank of lines 13–16. -/
def normalize (raw : PyStr) : List PyStr :=
  ((psplit raw).map pnorm).filter (fun s => !s.isEmpty)

/-- Modelled from the spec's wording of the Symbol Normalizer ("splits on
comma, trims whitespace, upper-cases each token, discards empty tokens after
trimming"), for comparison with the source-derived `normalize`. -/
def normalizeSpec (raw : PyStr) : List PyStr :=
  ((psplit raw).filter (fun t => !(pstrip t).isEmpty)).map pnorm

/-- The Streamlit session state the app keeps across interactions:
`st.session_state.df` and `st.session_state.last_updated`. -/
structure AppState where
  df : List Row
  last_updated : PyStr

/-- `update_data` (lines 86–94): split the input, fetch, and replace the
stored report and timestamp together — but only when the new frame is
non-empty. -/
noncomputable def update_data (f : PyStr → FetchResult) (now : PyStr)
    (ticker_input : PyStr) (s : AppState) : AppState :=
  let new_df := (fetch_stock_data f (psplit ticker_input)).1
  if new_df.isEmpty then s else { df := new_df, last_updated := now }

/-! ### Helper lemmas -/

theorem fsd_nil (f : PyStr → FetchResult) : fetch_stock_data f [] = ([], []) := rfl

theorem fsd_cons_skip (f : PyStr → FetchResult) (t : PyStr) (ts : List PyStr)
    (h : (pnorm t).isEmpty = true) :
    fetch_stock_data f (t :: ts) = fetch_stock_data f ts := by
  simp [fetch_stock_data, h]

theorem fsd_cons_noData (f : PyStr → FetchResult) (t : PyStr) (ts : List PyStr)
    (hist : List Bar) (mc : Option ℚ)
    (h : (pnorm t).isEmpty = false) (hf : f (pnorm t) = FetchResult.ok hist mc)
    (hh : hist.isEmpty = true) :
    fetch_stock_data f (t :: ts) =
      ((fetch_stock_data f ts).1, ErrEvent.noData (pnorm t) :: (fetch_stock_data f ts).2) := by
  simp [fetch_stock_data, h, hf, hh]

theorem fsd_cons_row (f : PyStr → FetchResult) (t : PyStr) (ts : List PyStr)
    (hist : List Bar) (mc : Option ℚ)
    (h : (pnorm t).isEmpty = false) (hf : f (pnorm t) = FetchResult.ok hist mc)
    (hh : hist.isEmpty = false) :
    fetch_stock_data f (t :: ts) =
      (computeRow (pnorm t) hist mc :: (fetch_stock_data f ts).1,
        (fetch_stock_data f ts).2) := by
  simp [fetch_stock_data, h, hf, hh]

theorem fsd_cons_exn (f : PyStr → FetchResult) (t : PyStr) (ts : List PyStr)
    (h : (pnorm t).isEmpty = false) (hf : f (pnorm t) = FetchResult.exn) :
    fetch_stock_data f (t :: ts) =
      ((fetch_stock_data f ts).1, ErrEvent.fetchErr (pnorm t) :: (fetch_stock_data f ts).2) := by
  simp [fetch_stock_data, h, hf]

theorem fsd_append (f : PyStr → FetchResult) (xs ys : List PyStr) :
    fetch_stock_data f (xs ++ ys) =
      ((fetch_stock_data f xs).1 ++ (fetch_stock_data f ys).1,
        (fetch_stock_data f xs).2 ++ (fetch_stock_data f ys).2) := by
  induction xs with
  | nil => simp [fsd_nil]
  | cons t ts ih =>
    rcases h : (pnorm t).isEmpty with hfalse | htrue
    · rcases hf : f (pnorm t) with ⟨hist, mc⟩ | _
      · rcases hh : hist.isEmpty with h2 | h2
        · rw [List.cons_append, fsd_cons_row f t (ts ++ ys) hist mc h hf hh,
            fsd_cons_row f t ts hist mc h hf hh, ih]
          simp
        · rw [List.cons_append, fsd_cons_noData f t (ts ++ ys) hist mc h hf hh,
            fsd_cons_noData f t ts hist mc h hf hh, ih]
          simp
      · rw [List.cons_append, fsd_cons_exn f t (ts ++ ys) h hf,
          fsd_cons_exn f t ts h hf, ih]
        simp
    · rw [List.cons_append, fsd_cons_skip f t (ts ++ ys) h, fsd_cons_skip f t ts h, ih]

theorem listMin_mem : ∀ (l : List ℚ), l ≠ [] → listMin l ∈ l := by
  have aux : ∀ (xs : List ℚ) (a : ℚ), xs.foldl min a = a ∨ xs.foldl min a ∈ xs := by
    intro xs
    induction xs with
    | nil => intro a; exact Or.inl rfl
    | cons y ys ih =>
      intro a
      rcases ih (min a y) with h | h
      · rcases min_choice a y with hm | hm
        · exact Or.inl (by rw [List.foldl_cons, h, hm])
        · exact Or.inr (by rw [List.foldl_cons, h, hm]; exact List.mem_cons_self y ys)
      · exact Or.inr (List.mem_cons_of_mem y h)
  intro l hl
  match l with
  | x :: xs =>
    show xs.foldl min x ∈ x :: xs
    rcases aux xs x with h | h
    · rw [h]; exact List.mem_cons_self x xs
    · exact List.mem_cons_of_mem x h

theorem le_listMax : ∀ (l : List ℚ) (x : ℚ), x ∈ l → x ≤ listMax l := by
  have aux : ∀ (xs : List ℚ) (a : ℚ),
      a ≤ xs.foldl max a ∧ ∀ x ∈ xs, x ≤ xs.foldl max a := by
    intro xs
    induction xs with
    | nil => intro a; exact ⟨le_refl a, by intro x hx; cases hx⟩
    | cons y ys ih =>
      intro a
      constructor
      · exact le_trans (le_max_left a y) (ih (max a y)).1
      · intro x hx
        rcases List.mem_cons.mp hx with rfl | hx
        · exact le_trans (le_max_right a x) (ih (max a x)).1
        · exact (ih (max a y)).2 x hx
  intro l x hx
  match l with
  | a :: xs =>
    rcases List.mem_cons.mp hx with rfl | hx
    · exact (aux xs x).1
    · exact (aux xs a).2 x hx

theorem currentPrice_eq_getLast (hist : List Bar) (h : hist ≠ []) :
    currentPrice hist = (hist.getLast h).close := by
  unfold currentPrice
  rw [List.getLastD_eq_getLast?, List.getLast?_eq_getLast hist h, Option.getD_some]

theorem low52_pos (hist : List Bar) (hne : hist ≠ [])
    (hval : ∀ b ∈ hist, 0 < b.low) : 0 < low52 hist := by
  have hm : listMin (hist.map Bar.low) ∈ hist.map Bar.low :=
    listMin_mem _ (by simpa using hne)
  rcases List.mem_map.mp hm with ⟨b, hb, heq⟩
  rw [low52, ← heq]
  exact hval b hb

theorem currentPrice_le_high52 (hist : List Bar) (hne : hist ≠ [])
    (hval : ∀ b ∈ hist, b.close ≤ b.high) : currentPrice hist ≤ high52 hist := by
  rw [currentPrice_eq_getLast hist hne]
  have hb : hist.getLast hne ∈ hist := List.getLast_mem hne
  exact le_trans (hval _ hb)
    (le_listMax _ _ (List.mem_map.mpr ⟨hist.getLast hne, hb, rfl⟩))

/-- When a batch consists only of symbols that normalise to something non-blank
and fetch successfully, every symbol yields a row and no failure is recorded. -/
theorem fsd_all_valid (f : PyStr → FetchResult) :
    ∀ ts : List PyStr,
      (∀ t ∈ ts, (pnorm t).isEmpty = false ∧ succeeds f (pnorm t) = true) →
      (fetch_stock_data f ts).1.length = ts.length ∧ (fetch_stock_data f ts).2 = [] := by
  intro ts
  induction ts with
  | nil => intro _; exact ⟨rfl, rfl⟩
  | cons t ts ih =>
    intro hval
    have ht := hval t (List.mem_cons_self t ts)
    have hrest := ih (fun u hu => hval u (List.mem_cons_of_mem t hu))
    rcases hf : f (pnorm t) with ⟨hist, mc⟩ | _
    · have hne : hist.isEmpty = false := by
        have := ht.2
        rw [succeeds, hf] at this
        simpa using this
      rw [fsd_cons_row f t ts hist mc ht.1 hf hne]
      exact ⟨by simpa using hrest.1, hrest.2⟩
    · exfalso
      have := ht.2
      rw [succeeds, hf] at this
      simp at this

/-! ### Concrete fixtures for witnesses and counterexamples -/

/-- A five-bar history: fewer than 20 bars but non-empty. -/
def bars5 : List Bar := List.replicate 5 ⟨100, 100, 100, 100⟩

/-- A twenty-bar history whose 52-week low is exactly zero. -/
def bars20z : List Bar := ⟨100, 100, 0, 100⟩ :: List.replicate 19 ⟨100, 100, 100, 100⟩

/-- The spec's worked example: a flat 30-day close of 100 with 52-week range
[80, 120] (realised by the first bar's low/high). -/
def bars30 : List Bar := ⟨100, 120, 80, 100⟩ :: List.replicate 29 ⟨100, 100, 100, 100⟩

/-- Twenty closes with mean 20 and sample variance exactly 100 (so the
20-day standard deviation is the rational number 10). -/
def cs20 : List ℚ :=
  [60, 10, 10, 15, 15, 15, 15, 20, 20, 20, 20, 20, 20, 20, 20, 20, 20, 20, 20, 20]

/-- Oracle: the symbol SHORT has a 5-bar history, everything else no data. -/
def fShort : PyStr → FetchResult := fun s =>
  if s = ("SHORT".data) then FetchResult.ok bars5 none else FetchResult.ok [] none

/-- Oracle: the symbol ZERO has a 20-bar history containing a zero low. -/
def fZero : PyStr → FetchResult := fun s =>
  if s = ("ZERO".data) then FetchResult.ok bars20z none else FetchResult.ok [] none

/-- Oracle: AAA and BBB have full histories, BAD has no data. -/
def fMixed : PyStr → FetchResult := fun s =>
  if s = ("AAA".data) then FetchResult.ok bars30 none
  else if s = ("BBB".data) then FetchResult.ok bars30 none
  else FetchResult.ok [] none

/-- Oracle: every symbol has no data (a totally failing run). -/
def fNone : PyStr → FetchResult := fun _ => FetchResult.ok [] none

/-- A twenty-bar history whose closes are `cs20` (mean 20, sample variance
100, so the 20-day standard deviation is 10 and `bb_low = 20 - 2*10 = 0`)
and whose first bar has a zero low: both a zero 52-week-low denominator and
a zero Bollinger-band denominator occur in this one series. -/
def barsBB : List Bar :=
  ⟨60, 60, 0, 60⟩ :: (cs20.drop 1).map (fun c => ⟨c, c, c, c⟩)

/-- Oracle: the symbol BB has the zero-band-denominator history. -/
def fBB : PyStr → FetchResult := fun s =>
  if s = ("BB".data) then FetchResult.ok barsBB none else FetchResult.ok [] none

set_option maxRecDepth 8000

theorem bars20z_currentPrice : currentPrice bars20z = 100 := by decide

theorem bars20z_low52 : low52 bars20z = 0 := by decide

theorem bars30_currentPrice : currentPrice bars30 = 100 := by decide

theorem bars30_low52 : low52 bars30 = 80 := by decide

theorem bars30_high52 : high52 bars30 = 120 := by decide

theorem var20_cs20_eq : var20 cs20 = 100 := by
  norm_num [var20, sampleVar, window20, listMean, cs20]

theorem mean20_cs20_eq : mean20 cs20 = 20 := by
  norm_num [mean20, window20, listMean, cs20]

theorem closes_barsBB_eq : closes barsBB = cs20 := by decide

theorem low52_barsBB_eq : low52 barsBB = 0 := by decide

theorem bbLowR_cs20_eq : bbLowR cs20 = some 0 := by
  have hlt : ¬cs20.length < 20 := by decide
  have hm : rollingMeanLast cs20 = some (mean20 cs20) := if_neg hlt
  have hv : rollingVarLast cs20 = some (var20 cs20) := if_neg hlt
  have hs : std20R cs20 = some (Real.sqrt ((var20 cs20 : ℝ))) := by
    rw [std20R, hv]
    rfl
  have hsqrt : Real.sqrt ((var20 cs20 : ℝ)) = 10 := by
    rw [var20_cs20_eq, show ((100 : ℚ) : ℝ) = 10 ^ 2 by norm_num]
    exact Real.sqrt_sq (by norm_num)
  rw [mean20_cs20_eq] at hm
  simp [bbLowR, hm, hs, hsqrt]
  norm_num

/-- Any percentage whose reference value is exactly zero is non-finite:
numpy float division by zero yields +∞, −∞ or NaN according to the sign of
the numerator, never a finite number and never an exception. -/
theorem pctDevR_some_zero (x : ℝ) :
    pctDevR x (some 0) = PF.pinf ∨ pctDevR x (some 0) = PF.ninf
    ∨ pctDevR x (some 0) = PF.nan := by
  rcases lt_trichotomy (0 : ℝ) x with h | h | h
  · exact Or.inl (by simp [pctDevR, h])
  · exact Or.inr (Or.inr (by simp [pctDevR, ← h]))
  · exact Or.inr (Or.inl (by simp [pctDevR, h, not_lt.mpr (le_of_lt h)]))

theorem bbLowR_of_short (xs : List ℚ) (h : xs.length < 20) : bbLowR xs = none := by
  simp [bbLowR, std20R, rollingMeanLast, rollingVarLast, h]

theorem bbHighR_of_short (xs : List ℚ) (h : xs.length < 20) : bbHighR xs = none := by
  simp [bbHighR, std20R, rollingMeanLast, rollingVarLast, h]

/-! ### Claim theorems -/

/-- C1 counterexample: the symbol SHORT has a non-empty history of only 5 bars,
yet `fetch_stock_data` does not fail for it — it emits a row for SHORT (whose
Bollinger percentage is NaN) and records no failure, contradicting the claim
that a sub-20-bar series fails with `InsufficientData` and produces no row. -/
theorem short_series_emits_row :
    (fetch_stock_data fShort [("short".data)]).1 = [computeRow ("SHORT".data) bars5 none]
    ∧ (fetch_stock_data fShort [("short".data)]).2 = []
    ∧ (computeRow ("SHORT".data) bars5 none).pctFromBBLow = PF.nan :=
  ⟨rfl, rfl, rfl⟩

/-- C1 amended: a symbol whose fetched series is non-empty but has fewer than
20 bars does not fail at all — its row is still emitted into the batch result,
and the Bollinger-derived percentages of that row are NaN (the rolling window
is incomplete, and pandas produces NaN rather than an error). -/
theorem short_series_row_nan_bands (f : PyStr → FetchResult) (xs ys : List PyStr)
    (t : PyStr) (hist : List Bar) (mc : Option ℚ)
    (hb : (pnorm t).isEmpty = false)
    (hf : f (pnorm t) = FetchResult.ok hist mc)
    (hne : hist.isEmpty = false)
    (hlen : hist.length < 20) :
    (fetch_stock_data f (xs ++ t :: ys)).1 =
      (fetch_stock_data f xs).1 ++ computeRow (pnorm t) hist mc :: (fetch_stock_data f ys).1
    ∧ (computeRow (pnorm t) hist mc).pctFromBBLow = PF.nan
    ∧ (computeRow (pnorm t) hist mc).pctFromBBHigh = PF.nan := by
  have hcl : (closes hist).length < 20 := by simpa [closes] using hlen
  refine ⟨?_, ?_, ?_⟩
  · rw [fsd_append f xs (t :: ys), fsd_cons_row f t ys hist mc hb hf hne]
  · show pctDevR _ (bbLowR (closes hist)) = PF.nan
    rw [bbLowR_of_short _ hcl]
    rfl
  · show pctDevR _ (bbHighR (closes hist)) = PF.nan
    rw [bbHighR_of_short _ hcl]
    rfl

/-- C1 witness: the amended theorem applied to the concrete 5-bar history. -/
theorem short_series_row_nan_bands_witness :
    (fetch_stock_data fShort ([] ++ ("short".data) :: [])).1 =
      (fetch_stock_data fShort []).1 ++
        computeRow ("SHORT".data) bars5 none :: (fetch_stock_data fShort []).1
    ∧ (computeRow ("SHORT".data) bars5 none).pctFromBBLow = PF.nan :=
  have h := short_series_row_nan_bands fShort [] [] ("short".data) bars5 none
    (by decide) (by decide) (by decide) (by decide)
  ⟨h.1, h.2.1⟩

/-- C2 counterexample: the symbol ZERO has a 20-bar history whose 52-week low
is exactly zero, yet `fetch_stock_data` does not fail with `InsufficientData`
for it — the row is emitted (with an infinite `pct_from_52w_low`, as numpy
division by zero only warns) and no failure is recorded. -/
theorem zero_low_emits_row :
    (fetch_stock_data fZero [("zero".data)]).1 = [computeRow ("ZERO".data) bars20z none]
    ∧ (fetch_stock_data fZero [("zero".data)]).2 = []
    ∧ (computeRow ("ZERO".data) bars20z none).pctFrom52Low = PF.pinf := by
  refine ⟨rfl, rfl, ?_⟩
  show pctDevQ (currentPrice bars20z) (low52 bars20z) = PF.pinf
  rw [bars20z_low52, bars20z_currentPrice]
  simp [pctDevQ]

/-- C2 amended: a zero percentage denominator never makes the computation
fail — for any non-empty fetched series the symbol's row is emitted and no
failure is recorded, and wherever a denominator is exactly zero (the 52-week
low for the 52-week metric, `bb_low` or `bb_high` for the band metrics) the
corresponding percentage of the emitted row is non-finite (+∞, −∞ or NaN)
rather than numeric. -/
theorem zero_denominator_no_failure (f : PyStr → FetchResult) (xs ys : List PyStr)
    (t : PyStr) (hist : List Bar) (mc : Option ℚ)
    (hb : (pnorm t).isEmpty = false)
    (hf : f (pnorm t) = FetchResult.ok hist mc)
    (hne : hist.isEmpty = false) :
    (fetch_stock_data f (xs ++ t :: ys)).1 =
      (fetch_stock_data f xs).1 ++ computeRow (pnorm t) hist mc :: (fetch_stock_data f ys).1
    ∧ (fetch_stock_data f (xs ++ t :: ys)).2 =
      (fetch_stock_data f xs).2 ++ (fetch_stock_data f ys).2
    ∧ (low52 hist = 0 →
        (computeRow (pnorm t) hist mc).pctFrom52Low = PF.pinf
        ∨ (computeRow (pnorm t) hist mc).pctFrom52Low = PF.ninf
        ∨ (computeRow (pnorm t) hist mc).pctFrom52Low = PF.nan)
    ∧ (bbLowR (closes hist) = some 0 →
        (computeRow (pnorm t) hist mc).pctFromBBLow = PF.pinf
        ∨ (computeRow (pnorm t) hist mc).pctFromBBLow = PF.ninf
        ∨ (computeRow (pnorm t) hist mc).pctFromBBLow = PF.nan)
    ∧ (bbHighR (closes hist) = some 0 →
        (computeRow (pnorm t) hist mc).pctFromBBHigh = PF.pinf
        ∨ (computeRow (pnorm t) hist mc).pctFromBBHigh = PF.ninf
        ∨ (computeRow (pnorm t) hist mc).pctFromBBHigh = PF.nan) := by
  refine ⟨?_, ?_, ?_, ?_, ?_⟩
  · rw [fsd_append f xs (t :: ys), fsd_cons_row f t ys hist mc hb hf hne]
  · rw [fsd_append f xs (t :: ys), fsd_cons_row f t ys hist mc hb hf hne]
  · intro hzero
    show pctDevQ (currentPrice hist) (low52 hist) = PF.pinf
        ∨ pctDevQ (currentPrice hist) (low52 hist) = PF.ninf
        ∨ pctDevQ (currentPrice hist) (low52 hist) = PF.nan
    rw [hzero, pctDevQ]
    rcases lt_trichotomy (0 : ℚ) (currentPrice hist) with h | h | h
    · exact Or.inl (by simp [h])
    · exact Or.inr (Or.inr (by simp [← h]))
    · exact Or.inr (Or.inl (by simp [h, not_lt.mpr (le_of_lt h)]))
  · intro hzero
    show pctDevR ((currentPrice hist : ℝ)) (bbLowR (closes hist)) = PF.pinf
        ∨ pctDevR ((currentPrice hist : ℝ)) (bbLowR (closes hist)) = PF.ninf
        ∨ pctDevR ((currentPrice hist : ℝ)) (bbLowR (closes hist)) = PF.nan
    rw [hzero]
    exact pctDevR_some_zero _
  · intro hzero
    show pctDevR ((currentPrice hist : ℝ)) (bbHighR (closes hist)) = PF.pinf
        ∨ pctDevR ((currentPrice hist : ℝ)) (bbHighR (closes hist)) = PF.ninf
        ∨ pctDevR ((currentPrice hist : ℝ)) (bbHighR (closes hist)) = PF.nan
    rw [hzero]
    exact pctDevR_some_zero _

/-- C2 witness: the amended theorem applied to the concrete 20-bar history
`barsBB`, whose 52-week low is zero and whose Bollinger lower band is exactly
zero (closes of mean 20 with 20-day standard deviation 10): the row is
emitted, no failure is recorded, and both the 52-week-low percentage and the
lower-band percentage are non-finite. -/
theorem zero_denominator_no_failure_witness :
    (fetch_stock_data fBB ([] ++ ("bb".data) :: [])).1 =
      (fetch_stock_data fBB []).1 ++
        computeRow ("BB".data) barsBB none :: (fetch_stock_data fBB []).1
    ∧ (fetch_stock_data fBB ([] ++ ("bb".data) :: [])).2 =
      (fetch_stock_data fBB []).2 ++ (fetch_stock_data fBB []).2
    ∧ ((computeRow ("BB".data) barsBB none).pctFrom52Low = PF.pinf
        ∨ (computeRow ("BB".data) barsBB none).pctFrom52Low = PF.ninf
        ∨ (computeRow ("BB".data) barsBB none).pctFrom52Low = PF.nan)
    ∧ ((computeRow ("BB".data) barsBB none).pctFromBBLow = PF.pinf
        ∨ (computeRow ("BB".data) barsBB none).pctFromBBLow = PF.ninf
        ∨ (computeRow ("BB".data) barsBB none).pctFromBBLow = PF.nan) :=
  have h := zero_denominator_no_failure fBB [] [] ("bb".data) barsBB none
    (by decide) (by decide) (by decide)
  ⟨h.1, h.2.1, h.2.2.1 low52_barsBB_eq,
    h.2.2.2.1 (by rw [closes_barsBB_eq]; exact bbLowR_cs20_eq)⟩

/-- C3: a run that yields zero successful rows leaves the stored report and
the last-updated timestamp both unchanged; a run that yields at least one row
replaces both together (report := the new rows, timestamp := now). -/
theorem failed_run_keeps_state (f : PyStr → FetchResult) (now raw : PyStr)
    (s : AppState) :
    ((fetch_stock_data f (psplit raw)).1 = [] → update_data f now raw s = s)
    ∧ ((fetch_stock_data f (psplit raw)).1 ≠ [] →
        update_data f now raw s =
          { df := (fetch_stock_data f (psplit raw)).1, last_updated := now }) := by
  constructor
  · intro h
    rw [update_data]
    simp [h]
  · intro h
    rw [update_data]
    simp [List.isEmpty_eq_false.mpr h]

/-- C3 witness: with an oracle for which every symbol has no data, the run
yields zero rows and the previous state survives untouched. -/
theorem failed_run_keeps_state_witness :
    update_data fNone ("ts".data) ("aapl".data) ⟨[], ("Never".data)⟩ =
      ⟨[], ("Never".data)⟩ :=
  (failed_run_keeps_state fNone ("ts".data) ("aapl".data) ⟨[], ("Never".data)⟩).1 rfl

/-- C4 counterexample: a symbol with insufficient data (a non-empty 5-bar
history) is not recorded as a failure at all — no `st.error` event is
produced and the symbol still contributes a row — contradicting the claim
that an insufficient-data failure is recorded for the symbol. -/
theorem insufficient_data_not_recorded :
    (fetch_stock_data fShort [("short".data)]).2 = []
    ∧ (fetch_stock_data fShort [("short".data)]).1.length = 1 :=
  ⟨rfl, rfl⟩

/-- C4 amended: a symbol whose fetch fails (no data found, or a fetch
exception) is recorded as one failure and processing continues: a batch of
one failing symbol among N valid symbols yields exactly N−1 rows, identical
to running the N−1 valid symbols alone, plus exactly one recorded failure.
(A symbol with insufficient data is not a failure: it yields a NaN-band row.) -/
theorem failing_symbol_skipped (f : PyStr → FetchResult) (xs ys : List PyStr)
    (b : PyStr)
    (hb : (pnorm b).isEmpty = false)
    (hfail : isFailure (f (pnorm b)) = true)
    (hval : ∀ t ∈ xs ++ ys, (pnorm t).isEmpty = false ∧ succeeds f (pnorm t) = true) :
    (fetch_stock_data f (xs ++ b :: ys)).1 = (fetch_stock_data f (xs ++ ys)).1
    ∧ (fetch_stock_data f (xs ++ b :: ys)).1.length = xs.length + ys.length
    ∧ (fetch_stock_data f (xs ++ b :: ys)).2 = [failEvent (f (pnorm b)) (pnorm b)] := by
  have hxs : ∀ t ∈ xs, (pnorm t).isEmpty = false ∧ succeeds f (pnorm t) = true :=
    fun t ht => hval t (List.mem_append_left ys ht)
  have hys : ∀ t ∈ ys, (pnorm t).isEmpty = false ∧ succeeds f (pnorm t) = true :=
    fun t ht => hval t (List.mem_append_right xs ht)
  have hbad : fetch_stock_data f (b :: ys) =
      ((fetch_stock_data f ys).1,
        failEvent (f (pnorm b)) (pnorm b) :: (fetch_stock_data f ys).2) := by
    rcases hfr : f (pnorm b) with ⟨hist, mc⟩ | _
    · have hh : hist.isEmpty = true := by
        have := hfail
        rw [hfr] at this
        exact this
      rw [fsd_cons_noData f b ys hist mc hb hfr hh]
      rfl
    · rw [fsd_cons_exn f b ys hb hfr]
      rfl
  have hrows : (fetch_stock_data f (xs ++ b :: ys)).1 = (fetch_stock_data f (xs ++ ys)).1 := by
    rw [fsd_append f xs (b :: ys), fsd_append f xs ys, hbad]
  refine ⟨hrows, ?_, ?_⟩
  · rw [hrows, fsd_append f xs ys]
    have h1 := (fsd_all_valid f xs hxs).1
    have h2 := (fsd_all_valid f ys hys).1
    rw [List.length_append, h1, h2]
  · rw [fsd_append f xs (b :: ys), hbad]
    have h1 := (fsd_all_valid f xs hxs).2
    have h2 := (fsd_all_valid f ys hys).2
    simp [h1, h2]

/-- C4 witness: AAA and BBB fetch full histories, BAD has no data; the batch
AAA, BAD, BBB yields the same rows as AAA, BBB, two rows in total, and one
recorded failure for BAD. -/
theorem failing_symbol_skipped_witness :
    (fetch_stock_data fMixed ([("aaa".data)] ++ ("bad".data) :: [("bbb".data)])).1 =
      (fetch_stock_data fMixed ([("aaa".data)] ++ [("bbb".data)])).1
    ∧ (fetch_stock_data fMixed ([("aaa".data)] ++ ("bad".data) :: [("bbb".data)])).1.length = 2
    ∧ (fetch_stock_data fMixed ([("aaa".data)] ++ ("bad".data) :: [("bbb".data)])).2 =
      [failEvent (fMixed (pnorm ("bad".data))) (pnorm ("bad".data))] :=
  failing_symbol_skipped fMixed [("aaa".data)] [("bbb".data)] ("bad".data)
    (by decide) (by decide) (by decide)

/-- The symbol stored in a computed row is the normalised symbol it was
computed for. -/
theorem computeRow_symbol (s : PyStr) (hist : List Bar) (mc : Option ℚ) :
    (computeRow s hist mc).symbol = s := rfl

/-- Mapping each emitted row to its symbol recovers exactly the normalised,
non-blank symbols whose fetch succeeded, in input order. -/
theorem fsd_map_symbol (f : PyStr → FetchResult) :
    ∀ ts : List PyStr,
      ((fetch_stock_data f ts).1).map Row.symbol
        = ((ts.map pnorm).filter (fun s => !s.isEmpty)).filter (fun s => succeeds f s) := by
  intro ts
  induction ts with
  | nil => rfl
  | cons t ts ih =>
    rcases h : (pnorm t).isEmpty with _ | _
    · rcases hf : f (pnorm t) with ⟨hist, mc⟩ | _
      · rcases hh : hist.isEmpty with _ | _
        · have hq : succeeds f (pnorm t) = true := by simp [succeeds, hf, hh]
          rw [fsd_cons_row f t ts hist mc h hf hh]
          simp [List.filter_cons, h, hq, ih, computeRow_symbol]
        · have hq : succeeds f (pnorm t) = false := by simp [succeeds, hf, hh]
          rw [fsd_cons_noData f t ts hist mc h hf hh]
          simp [List.filter_cons, h, hq, ih]
      · have hq : succeeds f (pnorm t) = false := by simp [succeeds, hf]
        rw [fsd_cons_exn f t ts h hf]
        simp [List.filter_cons, h, hq, ih]
    · rw [fsd_cons_skip f t ts h]
      simp [List.filter_cons, h, ih]

/-- C5: the sequence of symbols in the resulting report equals the
subsequence of the Normalizer's output consisting of the successfully
processed symbols, in the same order. -/
theorem report_symbols_in_order (f : PyStr → FetchResult) (raw : PyStr) :
    ((fetch_stock_data f (psplit raw)).1).map Row.symbol
      = (normalize raw).filter (fun s => succeeds f s) := by
  rw [normalize]
  exact fsd_map_symbol f (psplit raw)

/-- C6: for a close series of at least 20 bars the Bollinger bounds are
`sma ∓ 2·std`; they bracket the moving average strictly when the standard
deviation is positive and collapse onto it when it is zero. -/
theorem bollinger_bounds_order (xs : List ℚ) (h20 : 20 ≤ xs.length) :
    bbLowR xs = some ((mean20 xs : ℝ) - 2 * Real.sqrt ((var20 xs : ℝ)))
    ∧ bbHighR xs = some ((mean20 xs : ℝ) + 2 * Real.sqrt ((var20 xs : ℝ)))
    ∧ (0 < Real.sqrt ((var20 xs : ℝ)) →
        (mean20 xs : ℝ) - 2 * Real.sqrt ((var20 xs : ℝ)) < (mean20 xs : ℝ)
        ∧ (mean20 xs : ℝ) < (mean20 xs : ℝ) + 2 * Real.sqrt ((var20 xs : ℝ)))
    ∧ (Real.sqrt ((var20 xs : ℝ)) = 0 →
        (mean20 xs : ℝ) - 2 * Real.sqrt ((var20 xs : ℝ)) = (mean20 xs : ℝ)
        ∧ (mean20 xs : ℝ) + 2 * Real.sqrt ((var20 xs : ℝ)) = (mean20 xs : ℝ)) := by
  have hlt : ¬xs.length < 20 := not_lt.mpr h20
  have hm : rollingMeanLast xs = some (mean20 xs) := if_neg hlt
  have hv : rollingVarLast xs = some (var20 xs) := if_neg hlt
  have hs : std20R xs = some (Real.sqrt ((var20 xs : ℝ))) := by
    rw [std20R, hv]
    rfl
  refine ⟨?_, ?_, ?_, ?_⟩
  · simp [bbLowR, hm, hs]
  · simp [bbHighR, hm, hs]
  · intro hpos
    constructor <;> linarith
  · intro hz
    rw [hz]
    constructor <;> ring

/-- C6 witness: on the concrete series `cs20` (sample variance 100) the
lower bound is strictly below the moving average. -/
theorem bollinger_bounds_order_witness :
    bbLowR cs20 = some ((mean20 cs20 : ℝ) - 2 * Real.sqrt ((var20 cs20 : ℝ)))
    ∧ (mean20 cs20 : ℝ) - 2 * Real.sqrt ((var20 cs20 : ℝ)) < (mean20 cs20 : ℝ) :=
  have h := bollinger_bounds_order cs20 (by decide)
  have hpos : 0 < Real.sqrt ((var20 cs20 : ℝ)) := by
    apply Real.sqrt_pos.mpr
    rw [var20_cs20_eq]
    norm_num
  ⟨h.1, (h.2.2.1 hpos).1⟩

theorem var20_bars30_eq : var20 (closes bars30) = 0 := by
  norm_num [var20, sampleVar, window20, listMean, closes, bars30, List.replicate]

theorem mean20_bars30_eq : mean20 (closes bars30) = 100 := by
  norm_num [mean20, window20, listMean, closes, bars30, List.replicate]

theorem std20R_bars30_eq : std20R (closes bars30) = some 0 := by
  have hlt : ¬(closes bars30).length < 20 := by decide
  rw [std20R, rollingVarLast, if_neg hlt]
  simp [var20_bars30_eq]

theorem rollingMeanLast_bars30_eq : rollingMeanLast (closes bars30) = some 100 := by
  have hlt : ¬(closes bars30).length < 20 := by decide
  rw [rollingMeanLast, if_neg hlt, mean20_bars30_eq]

theorem bbLowR_bars30_eq : bbLowR (closes bars30) = some 100 := by
  simp [bbLowR, rollingMeanLast_bars30_eq, std20R_bars30_eq]

theorem bbHighR_bars30_eq : bbHighR (closes bars30) = some 100 := by
  simp [bbHighR, rollingMeanLast_bars30_eq, std20R_bars30_eq]

/-- C7: the spec's worked example, computed through the embedded pipeline: a
flat 30-day close of 100 with 52-week range [80, 120] yields
`pct_from_52w_low = 25`, `pct_from_52w_high = -50/3` (= −16.666…),
`sma20 = 100`, `std20 = 0`, `bb_low = bb_high = 100`, and both band
percentages zero. -/
theorem spec_example_flat_series :
    currentPrice bars30 = 100
    ∧ low52 bars30 = 80
    ∧ high52 bars30 = 120
    ∧ (computeRow ("XYZ".data) bars30 none).pctFrom52Low = PF.fin 25
    ∧ (computeRow ("XYZ".data) bars30 none).pctFrom52High = PF.fin (-50 / 3)
    ∧ rollingMeanLast (closes bars30) = some 100
    ∧ std20R (closes bars30) = some 0
    ∧ bbLowR (closes bars30) = some 100
    ∧ bbHighR (closes bars30) = some 100
    ∧ (computeRow ("XYZ".data) bars30 none).pctFromBBLow = PF.fin 0
    ∧ (computeRow ("XYZ".data) bars30 none).pctFromBBHigh = PF.fin 0 := by
  refine ⟨bars30_currentPrice, bars30_low52, bars30_high52, ?_, ?_,
    rollingMeanLast_bars30_eq, std20R_bars30_eq, bbLowR_bars30_eq, bbHighR_bars30_eq, ?_, ?_⟩
  · show pctDevQ (currentPrice bars30) (low52 bars30) = PF.fin 25
    rw [bars30_currentPrice, bars30_low52]
    norm_num [pctDevQ]
  · show pctDevQ (currentPrice bars30) (high52 bars30) = PF.fin (-50 / 3)
    rw [bars30_currentPrice, bars30_high52]
    norm_num [pctDevQ]
  · show pctDevR ((currentPrice bars30 : ℝ)) (bbLowR (closes bars30)) = PF.fin 0
    rw [bars30_currentPrice, bbLowR_bars30_eq]
    norm_num [pctDevR]
  · show pctDevR ((currentPrice bars30 : ℝ)) (bbHighR (closes bars30)) = PF.fin 0
    rw [bars30_currentPrice, bbHighR_bars30_eq]
    norm_num [pctDevR]

/-- C8: on a series of bars with positive lows, whenever the current price is
at least the 52-week low the percentage from the low is a non-negative finite
number, and it is exactly zero when the 52-week low equals the latest close. -/
theorem pct_from_52w_low_nonneg (sym : PyStr) (hist : List Bar) (mc : Option ℚ)
    (hne : hist ≠ []) (hval : ∀ b ∈ hist, 0 < b.low)
    (hge : low52 hist ≤ currentPrice hist) :
    (computeRow sym hist mc).pctFrom52Low
      = PF.fin ((currentPrice hist - low52 hist) / low52 hist * 100)
    ∧ 0 ≤ (currentPrice hist - low52 hist) / low52 hist * 100
    ∧ (low52 hist = currentPrice hist →
        (computeRow sym hist mc).pctFrom52Low = PF.fin 0) := by
  have hpos : 0 < low52 hist := low52_pos hist hne hval
  have hfin : (computeRow sym hist mc).pctFrom52Low
      = PF.fin ((currentPrice hist - low52 hist) / low52 hist * 100) := by
    show pctDevQ (currentPrice hist) (low52 hist) = _
    rw [pctDevQ, if_neg (ne_of_gt hpos)]
  refine ⟨hfin, ?_, ?_⟩
  · have h1 : 0 ≤ currentPrice hist - low52 hist := by linarith
    have h2 := div_nonneg h1 hpos.le
    linarith
  · intro heq
    rw [hfin, heq]
    norm_num

/-- C8 witness: the theorem applied to the concrete 30-bar series. -/
theorem pct_from_52w_low_nonneg_witness :
    (computeRow ("XYZ".data) bars30 none).pctFrom52Low
      = PF.fin ((currentPrice bars30 - low52 bars30) / low52 bars30 * 100)
    ∧ 0 ≤ (currentPrice bars30 - low52 bars30) / low52 bars30 * 100 :=
  have h := pct_from_52w_low_nonneg ("XYZ".data) bars30 none
    (by decide) (by decide) (by decide)
  ⟨h.1, h.2.1⟩

/-- The upper-casing step cannot turn a non-empty token into an empty one or
vice versa. -/
theorem pupper_isEmpty (s : PyStr) : (pupper s).isEmpty = s.isEmpty := by
  cases s <;> rfl

/-- C9: the source's composite normalisation agrees with the spec's
description (split on commas, trim, upper-case, discard tokens empty after
trimming); duplicates are kept, and an all-blank input yields `[]`. -/
theorem normalizer_matches_spec :
    (∀ raw : PyStr, normalize raw = normalizeSpec raw)
    ∧ normalize ((" , ,  ").data) = []
    ∧ normalize (("aapl, aapl").data) = [("AAPL".data), ("AAPL".data)] := by
  refine ⟨?_, by decide, by decide⟩
  intro raw
  rw [normalize, normalizeSpec, List.filter_map]
  have hp : ((fun s : PyStr => !s.isEmpty) ∘ pnorm)
      = fun t : PyStr => !(pstrip t).isEmpty := by
    funext t
    simp [Function.comp, pnorm, pupper_isEmpty]
  rw [hp]

/-- C10: on a series of valid bars (positive closes, close at most high) the
percentage from the 52-week high is a non-positive finite number, and it is
zero exactly when the latest close equals the maximum high. -/
theorem pct_from_52w_high_nonpos (sym : PyStr) (hist : List Bar) (mc : Option ℚ)
    (hne : hist ≠ [])
    (hval : ∀ b ∈ hist, 0 < b.close ∧ b.close ≤ b.high) :
    (computeRow sym hist mc).pctFrom52High
      = PF.fin ((currentPrice hist - high52 hist) / high52 hist * 100)
    ∧ (currentPrice hist - high52 hist) / high52 hist * 100 ≤ 0
    ∧ ((currentPrice hist - high52 hist) / high52 hist * 100 = 0
        ↔ currentPrice hist = high52 hist) := by
  have hcp : 0 < currentPrice hist := by
    rw [currentPrice_eq_getLast hist hne]
    exact (hval _ (List.getLast_mem hne)).1
  have hle : currentPrice hist ≤ high52 hist :=
    currentPrice_le_high52 hist hne (fun b hb => (hval b hb).2)
  have hhigh : 0 < high52 hist := lt_of_lt_of_le hcp hle
  have hfin : (computeRow sym hist mc).pctFrom52High
      = PF.fin ((currentPrice hist - high52 hist) / high52 hist * 100) := by
    show pctDevQ (currentPrice hist) (high52 hist) = _
    rw [pctDevQ, if_neg (ne_of_gt hhigh)]
  refine ⟨hfin, ?_, ?_⟩
  · have h1 : currentPrice hist - high52 hist ≤ 0 := by linarith
    have h2 : (currentPrice hist - high52 hist) / high52 hist ≤ 0 :=
      div_nonpos_of_nonpos_of_nonneg h1 hhigh.le
    linarith
  · constructor
    · intro hv
      have h0 : (currentPrice hist - high52 hist) / high52 hist = 0 := by linarith
      rcases div_eq_zero_iff.mp h0 with h | h
      · linarith
      · exact absurd h (ne_of_gt hhigh)
    · intro hv
      rw [hv]
      simp

/-- C10 witness: the theorem applied to the concrete 30-bar series. -/
theorem pct_from_52w_high_nonpos_witness :
    (computeRow ("XYZ".data) bars30 none).pctFrom52High
      = PF.fin ((currentPrice bars30 - high52 bars30) / high52 bars30 * 100)
    ∧ (currentPrice bars30 - high52 bars30) / high52 bars30 * 100 ≤ 0 :=
  have h := pct_from_52w_high_nonpos ("XYZ".data) bars30 none
    (by decide) (by decide)
  ⟨h.1, h.2.1⟩

end StockScreen
